import Mathlib

/-!
Formalisation of the fingerprint generation and archive code of the Helium
repository (`src/fingerprints.h` and its use in `tools/index.cpp`).

Machine words (`Word`, 64-bit) are modelled as natural numbers and a bit
vector as a `List Nat` of words; all bit positions stay below 64 inside a
word, and the only word operations used by the code are bitwise or and
bitwise and, which agree with 64-bit unsigned semantics on values below
2 ^ 64.
-/

namespace Helium

/-- Modelled from the spec: `bitvec.h` is not under src/.  Spec section 4.1:
bit `i` of a bit vector lives in word `i / bits_per_word` at position
`i % bits_per_word`; `Word` has 64 bits.  `get(i, fp)` tests that bit. -/
def get (i : Nat) (fp : List Nat) : Bool :=
  Nat.testBit (fp.getD (i / 64) 0) (i % 64)

/-- Modelled from the spec: `set(i, fp)` from `bitvec.h` sets bit
`i % bits_per_word` of word `i / bits_per_word`.  A position outside the
buffer is undefined behaviour in the C++ code; the model makes it a no-op,
and every concrete input used below keeps its positions inside the buffer. -/
def set (i : Nat) (fp : List Nat) : List Nat :=
  fp.set (i / 64) (fp.getD (i / 64) 0 ||| 2 ^ (i % 64))

/-- Modelled from the spec: `zero(fp, numWords)` from `bitvec.h` overwrites
the first `numWords` words of the buffer with zeros; the buffers in
`fingerprints.h` have exactly `numWords` words, so the zeroed buffer is
`numWords` zero words whatever it held before. -/
def zero (numWords : Nat) : List Nat :=
  List.replicate numWords 0

/-- The entry assertion of the three fingerprint builders
(`fingerprints.h` lines 37, 98 and 105):
`assert(hashPrime <= numWords * sizeof(Word) * 8)`. -/
def fingerprint_assert (numWords hashPrime : Nat) : Bool :=
  decide (hashPrime ≤ numWords * 64)

/-- The bit indices a fingerprint builder writes: `hash(code) % hashPrime`
for each enumerated substructure (`fingerprints.h` lines 43 and 73). -/
def fingerprintIndices (hashes : List Nat) (hashPrime : Nat) : List Nat :=
  hashes.map (fun h => h % hashPrime)

/-- `path_fingerprint` (`fingerprints.h` lines 34 to 45).  The path
enumerator and the canonical coder (`enumeratepaths.h`, `canonical.h`) are
not under src/; per spec sections 4.2 and 4.5 they are deterministic
functions of the molecule, so the molecule is represented by the list of
values `hash(canonicalCode)` of its enumerated paths, in enumeration order.
The function zeroes the buffer (discarding `fingerprint`, the prior buffer
contents) and then sets bit `hash % hashPrime` for every path. -/
def path_fingerprint (fingerprint : List Nat) (pathHashes : List Nat)
    (numWords hashPrime : Nat) : List Nat :=
  pathHashes.foldl (fun fp h => set (h % hashPrime) fp) (zero numWords)

/-- `impl::SubgraphsFingerprint` (`fingerprints.h` lines 49 to 91).  The
subgraph enumerator and canonical coder are not under src/ (spec sections
4.3 to 4.5: deterministic given the molecule), so the molecule is the list
of values `m_hash(code)` of its enumerated subgraphs.  The callback
constructor zeroes the buffer; each callback invocation sets bit
`m_hash(code) % hashPrime`. -/
def SubgraphsFingerprint.run (fingerprint : List Nat) (codeHashes : List Nat)
    (numWords hashPrime : Nat) : List Nat :=
  codeHashes.foldl (fun fp h => set (h % hashPrime) fp) (zero numWords)

/-- `tree_fingerprint` (`fingerprints.h` lines 95 to 100): runs
`SubgraphsFingerprint` with `trees = true`; the tree mode only changes
which subgraphs are enumerated, i.e. the hash list. -/
def tree_fingerprint (fingerprint : List Nat) (codeHashes : List Nat)
    (numWords hashPrime : Nat) : List Nat :=
  SubgraphsFingerprint.run fingerprint codeHashes numWords hashPrime

/-- `subgraph_fingerprint` (`fingerprints.h` lines 102 to 107): runs
`SubgraphsFingerprint` with `trees = false`. -/
def subgraph_fingerprint (fingerprint : List Nat) (codeHashes : List Nat)
    (numWords hashPrime : Nat) : List Nat :=
  SubgraphsFingerprint.run fingerprint codeHashes numWords hashPrime

/-- `InvertedFingerprintFileHeader::get_magic_number`
(`fingerprints.h` line 161). -/
def get_magic_number : Nat := 0x48650001

/-- `InvertedFingerprintFileHeader` (`fingerprints.h` lines 155 to 172),
six unsigned 32-bit fields. -/
structure InvertedFingerprintFileHeader where
  magic_number : Nat
  bits_per_word : Nat
  bits_per_fingerprint : Nat
  words_per_fingerprint : Nat
  words_per_fpbit : Nat
  num_fingerprints : Nat

/-- State of `InvertedFingerprintOutputFile`: the header, the running
fingerprint index `m_current` and the in-memory matrix `m_data`. -/
structure InvertedFingerprintOutputFile where
  header : InvertedFingerprintFileHeader
  current : Nat
  data : List Nat

/-- Constructor of `InvertedFingerprintOutputFile` (`fingerprints.h` lines
177 to 195).  Note `words_per_fpbit` is computed as
`(N + N % bits_per_word) / bits_per_word`, exactly as in the source.  The
matrix is allocated with `new Word[...]`, which leaves the words
default-initialised (indeterminate); the model takes the most favourable
reading and starts from zero words. -/
def mkInvertedFingerprintOutputFile (bitsPerFingerprint numFingerprints : Nat) :
    InvertedFingerprintOutputFile :=
  let header : InvertedFingerprintFileHeader :=
    { magic_number := get_magic_number
      bits_per_word := 64
      bits_per_fingerprint := bitsPerFingerprint
      words_per_fingerprint := bitsPerFingerprint / 64
      words_per_fpbit := (numFingerprints + numFingerprints % 64) / 64
      num_fingerprints := numFingerprints }
  { header := header
    current := 0
    data := List.replicate (header.words_per_fpbit * header.bits_per_fingerprint) 0 }

/-- `InvertedFingerprintOutputFile::write` (`fingerprints.h` lines 204 to
216): for every bit `i` set in the incoming fingerprint, set matrix bit
`i * words_per_fpbit * 64 + m_current`, then increment `m_current`.  The
source performs no check of `m_current` against `num_fingerprints`. -/
def InvertedFingerprintOutputFile.write (f : InvertedFingerprintOutputFile)
    (fingerprint : List Nat) : InvertedFingerprintOutputFile :=
  { f with
    data := (List.range f.header.bits_per_fingerprint).foldl
      (fun d i =>
        if get i fingerprint then
          set (i * f.header.words_per_fpbit * 64 + f.current) d
        else d)
      f.data
    current := f.current + 1 }

/-- Writing a sequence of fingerprints in order (the driver loop of
`tools/index.cpp` calls `write` once per molecule, in input order). -/
def writeAll (f : InvertedFingerprintOutputFile) (fps : List (List Nat)) :
    InvertedFingerprintOutputFile :=
  fps.foldl InvertedFingerprintOutputFile.write f

/-- One iteration of the loop of `InvertedFingerprintFile::search`
(`fingerprints.h` lines 259 to 285).  The state is the `first` flag and the
result buffer.  For a set query bit `i` the reader seeks to the row at word
offset `i * words_per_fpbit` of the matrix and reads `words_per_fpbit`
words into the scratch buffer `m_data`, then copies it into the result
(first set bit) or intersects it word by word (later set bits). -/
def InvertedFingerprintFile.searchStep (wordsPerFpbit : Nat)
    (data fingerprint : List Nat) (st : Bool × List Nat) (i : Nat) :
    Bool × List Nat :=
  if !(get i fingerprint) then st
  else
    let offset := i * wordsPerFpbit
    let scratch := (List.range wordsPerFpbit).map (fun j => data.getD (offset + j) 0)
    if st.1 then
      (false, (List.range wordsPerFpbit).foldl
        (fun r j => r.set j (scratch.getD j 0)) st.2)
    else
      (false, (List.range wordsPerFpbit).foldl
        (fun r j => r.set j (r.getD j 0 &&& scratch.getD j 0)) st.2)

/-- `InvertedFingerprintFile::search` (`fingerprints.h` lines 259 to 285).
`data` is the on-disk matrix (the words following the header), `result`
the caller-supplied result buffer, returned with its final contents. -/
def InvertedFingerprintFile.search (header : InvertedFingerprintFileHeader)
    (data fingerprint result : List Nat) : List Nat :=
  ((List.range header.bits_per_fingerprint).foldl
    (InvertedFingerprintFile.searchStep header.words_per_fpbit data fingerprint)
    (true, result)).2

/-- One iteration of the loop of `InvertedFingerprintFileCached::search`
(`fingerprints.h` lines 336 to 358): identical to the seeking reader except
that the row is addressed directly in the cached matrix with
`m_data[offset + j]` instead of going through a scratch read. -/
def InvertedFingerprintFileCached.searchStep (wordsPerFpbit : Nat)
    (data fingerprint : List Nat) (st : Bool × List Nat) (i : Nat) :
    Bool × List Nat :=
  if !(get i fingerprint) then st
  else
    let offset := i * wordsPerFpbit
    if st.1 then
      (false, (List.range wordsPerFpbit).foldl
        (fun r j => r.set j (data.getD (offset + j) 0)) st.2)
    else
      (false, (List.range wordsPerFpbit).foldl
        (fun r j => r.set j (r.getD j 0 &&& data.getD (offset + j) 0)) st.2)

/-- `InvertedFingerprintFileCached::search` (`fingerprints.h` lines 336 to
358). -/
def InvertedFingerprintFileCached.search (header : InvertedFingerprintFileHeader)
    (data fingerprint result : List Nat) : List Nat :=
  ((List.range header.bits_per_fingerprint).foldl
    (InvertedFingerprintFileCached.searchStep header.words_per_fpbit data fingerprint)
    (true, result)).2

/-- Modelled from the spec: `read32` and `read64` come from `fileio.h`,
which is not under src/; spec section 6 fixes little-endian byte order.
Little-endian decoding of four bytes at `off` of a byte list (a short or
missing tail decodes as zero, standing for the bytes the stream never
overwrote in the destination). -/
def readU32LE (bytes : List Nat) (off : Nat) : Nat :=
  bytes.getD off 0
    + 256 * (bytes.getD (off + 1) 0
    + 256 * (bytes.getD (off + 2) 0
    + 256 * bytes.getD (off + 3) 0))

/-- Reading an `InvertedFingerprintFileHeader` with
`ifs.read((char*)&m_header, sizeof(header))` (24 bytes): the six fields in
declaration order, little-endian.  On a file shorter than 24 bytes the
stream stores what is available and the remaining fields keep the
destination buffer contents (indeterminate in C++, modelled as zero); the
fail state of the stream after a short read is never consulted by either
reader constructor. -/
def readInvertedHeader (bytes : List Nat) : InvertedFingerprintFileHeader :=
  { magic_number := readU32LE bytes 0
    bits_per_word := readU32LE bytes 4
    bits_per_fingerprint := readU32LE bytes 8
    words_per_fingerprint := readU32LE bytes 12
    words_per_fpbit := readU32LE bytes 16
    num_fingerprints := readU32LE bytes 20 }

/-- Constructor of `InvertedFingerprintFile` (`fingerprints.h` lines 228 to
242) applied to the contents of an already opened file: reads the header
and throws (`none`) exactly when the decoded magic number differs from
`get_magic_number()`; otherwise the object is constructed (`some`). -/
def InvertedFingerprintFile.openFile (bytes : List Nat) :
    Option InvertedFingerprintFileHeader :=
  let header := readInvertedHeader bytes
  if header.magic_number ≠ get_magic_number then none else some header

/-- Constructor of `InvertedFingerprintFileCached` (`fingerprints.h` lines
296 to 314): identical header handling, then the matrix is read into
memory. -/
def InvertedFingerprintFileCached.openFile (bytes : List Nat) :
    Option InvertedFingerprintFileHeader :=
  let header := readInvertedHeader bytes
  if header.magic_number ≠ get_magic_number then none else some header

/-- Modelled from the spec: little-endian decoding of eight bytes
(`read64` of `fileio.h`, spec section 6). -/
def readU64LE (bytes : List Nat) (off : Nat) : Nat :=
  readU32LE bytes off + 2 ^ 32 * readU32LE bytes (off + 4)

/-- Modelled from the spec: an input stream over the bytes of a file.
`fail` is the fail state of the `std::ifstream`; once set, no further
extraction happens. -/
structure ByteStream where
  bytes : List Nat
  pos : Nat
  fail : Bool

/-- Modelled from the spec: `read32(ifs, value)` reads four little-endian
bytes.  A short read stores the available bytes (the unread part of the
destination, indeterminate in C++, is modelled as zero) and sets the
fail state. -/
def ByteStream.read32 (s : ByteStream) : Nat × ByteStream :=
  (readU32LE s.bytes s.pos,
    if s.pos + 4 ≤ s.bytes.length then { s with pos := s.pos + 4 }
    else { s with pos := s.bytes.length, fail := true })

/-- Modelled from the spec: `read64(ifs, value)`, eight bytes. -/
def ByteStream.read64 (s : ByteStream) : Nat × ByteStream :=
  (readU64LE s.bytes s.pos,
    if s.pos + 8 ≤ s.bytes.length then { s with pos := s.pos + 8 }
    else { s with pos := s.bytes.length, fail := true })

/-- State of `FingerprintFile` (`fingerprints.h` lines 116 to 153):
the stream, `m_numFingerprints`, `m_current` (an unsigned int, so it wraps
modulo 2 ^ 32) and `m_numWords`. -/
structure FingerprintFile where
  stream : ByteStream
  numFingerprints : Nat
  current : Nat
  numWords : Nat

/-- Constructor of `FingerprintFile` (lines 119 to 124) on the contents of
an opened file: reads a 32-bit count from the start of the file, hardwires
`m_numWords = 16`, and starts `m_current` at `(unsigned)-1`. -/
def mkFingerprintFile (bytes : List Nat) : FingerprintFile :=
  let s : ByteStream := { bytes := bytes, pos := 0, fail := false }
  let r := s.read32
  { stream := r.2, numFingerprints := r.1, current := 2 ^ 32 - 1, numWords := 16 }

/-- The body of the word-reading loop of `read_fingerprint` (line 143 to
144): `read64(m_ifs, fingerprint[i])`; a failed stream extracts nothing. -/
def readWordsStep (st : ByteStream × List Nat) (i : Nat) : ByteStream × List Nat :=
  if st.1.fail then st
  else
    let r := st.1.read64
    (r.2, st.2.set i r.1)

/-- `FingerprintFile::read_fingerprint` (`fingerprints.h` lines 136 to
146): returns false on a failed stream; otherwise increments `m_current`
(modulo 2 ^ 32, it is an unsigned int starting at -1), returns false when
it reaches `m_numFingerprints`, and otherwise reads `m_numWords` words
into the buffer and returns the stream state.  Result: (return value,
new object state, buffer contents). -/
def FingerprintFile.read_fingerprint (f : FingerprintFile)
    (fingerprint : List Nat) : Bool × FingerprintFile × List Nat :=
  if f.stream.fail then (false, f, fingerprint)
  else
    let cur := (f.current + 1) % 2 ^ 32
    if cur = f.numFingerprints then (false, { f with current := cur }, fingerprint)
    else
      let res := (List.range f.numWords).foldl readWordsStep (f.stream, fingerprint)
      (!res.1.fail, { f with current := cur, stream := res.1 }, res.2)

/-! ## Helper lemmas -/

theorem getD_replicate_zero : ∀ (W n : Nat), (List.replicate W (0 : Nat)).getD n 0 = 0 := by
  intro W
  induction W with
  | zero => intro n; rfl
  | succ W ih =>
    intro n
    cases n with
    | zero => rfl
    | succ n => exact ih n

theorem get_zero (i W : Nat) : get i (zero W) = false := by
  unfold get zero
  rw [getD_replicate_zero]
  exact Nat.zero_testBit _

theorem get_set_ne {i j : Nat} (fp : List Nat) (hij : i ≠ j) :
    get i (set j fp) = get i fp := by
  unfold get set
  rcases eq_or_ne (i / 64) (j / 64) with hw | hw
  · have hb : j % 64 ≠ i % 64 := by
      intro hb
      apply hij
      have hi1 := Nat.div_add_mod i 64
      have hj1 := Nat.div_add_mod j 64
      omega
    rw [hw, List.getD_eq_getD_get?, List.getD_eq_getD_get?, List.get?_set_eq]
    cases h : fp.get? (j / 64) with
    | none => simp
    | some w =>
      simp [Nat.testBit_lor, Nat.testBit_two_pow_of_ne hb]
  · rw [List.getD_eq_getD_get?, List.get?_set_ne _ _ (Ne.symm hw),
      ← List.getD_eq_getD_get?]

theorem get_foldl_set {p i : Nat} (hp : 0 < p) (hi : p ≤ i) :
    ∀ (hs acc : List Nat), get i acc = false →
      get i (hs.foldl (fun fp h => set (h % p) fp) acc) = false := by
  intro hs
  induction hs with
  | nil => intro acc h; exact h
  | cons a t ih =>
    intro acc hacc
    rw [List.foldl_cons]
    apply ih
    rw [get_set_ne acc (show i ≠ a % p by have := Nat.mod_lt a hp; omega)]
    exact hacc

theorem foldl_fix {α β : Type} (f : α → β → α) (hf : ∀ a b, f a b = a) :
    ∀ (l : List β) (a : α), l.foldl f a = a := by
  intro l
  induction l with
  | nil => intro a; rfl
  | cons b t ih => intro a; rw [List.foldl_cons, hf]; exact ih a

theorem getD_map_range {w j : Nat} (f : Nat → Nat) (hj : j < w) :
    ((List.range w).map f).getD j 0 = f j := by
  rw [List.getD_eq_getElem _ _ (by simpa using hj)]
  simp

/-! ## Claim theorems -/

/-- Claim C4: for every molecule (list of substructure code hashes), every
method (path, tree, subgraph) and every parameters `numWords` and
`hashPrime` with `hashPrime ≤ numWords * 64` (and `hashPrime` positive,
being a prime), the produced fingerprint has bit `i` equal to 0 for every
index `i ≥ hashPrime`. -/
theorem fingerprint_prime_bound (buf1 buf2 buf3 pathHashes codeHashes : List Nat)
    (numWords hashPrime i : Nat) (hp : 0 < hashPrime)
    (hW : hashPrime ≤ numWords * 64) (hi : hashPrime ≤ i) :
    get i (path_fingerprint buf1 pathHashes numWords hashPrime) = false ∧
    get i (tree_fingerprint buf2 codeHashes numWords hashPrime) = false ∧
    get i (subgraph_fingerprint buf3 codeHashes numWords hashPrime) = false := by
  refine ⟨?_, ?_, ?_⟩ <;>
    exact get_foldl_set hp hi _ _ (get_zero i numWords)

/-- Witness for C4 at a concrete input: hashes `[100]`, one word, prime
61, index 61. -/
theorem fingerprint_prime_bound_witness :
    (0 : Nat) < 61 ∧ (61 : Nat) ≤ 1 * 64 ∧ (61 : Nat) ≤ 61 ∧
    (get 61 (path_fingerprint [] [100] 1 61) = false ∧
     get 61 (tree_fingerprint [] [100] 1 61) = false ∧
     get 61 (subgraph_fingerprint [] [100] 1 61) = false) :=
  ⟨by decide, by decide, by decide,
    fingerprint_prime_bound [] [] [] [100] [100] 1 61 61
      (by decide) (by decide) (by decide)⟩

/-- Claim C5: for every molecule (its lists of path and subgraph code
hashes) and fixed parameters, computing the fingerprint into two output
buffers with different prior contents yields bit-identical fingerprints:
each builder zeroes the buffer first, so the prior contents are
discarded. -/
theorem fingerprint_deterministic (buf1 buf2 pathHashes codeHashes : List Nat)
    (numWords hashPrime : Nat) :
    path_fingerprint buf1 pathHashes numWords hashPrime =
      path_fingerprint buf2 pathHashes numWords hashPrime ∧
    tree_fingerprint buf1 codeHashes numWords hashPrime =
      tree_fingerprint buf2 codeHashes numWords hashPrime ∧
    subgraph_fingerprint buf1 codeHashes numWords hashPrime =
      subgraph_fingerprint buf2 codeHashes numWords hashPrime :=
  ⟨rfl, rfl, rfl⟩

/-- Claim C9: under the precondition `hashPrime ≤ numWords * 64` the entry
assertion of the builders holds, every bit index written into the buffer
(`hash % hashPrime`) is strictly below `numWords * 64`, and those indices
are exactly the ones the builders set. -/
theorem fingerprint_indices_in_bounds (pathHashes : List Nat)
    (numWords hashPrime : Nat) (hp : 0 < hashPrime)
    (hW : hashPrime ≤ numWords * 64) :
    fingerprint_assert numWords hashPrime = true ∧
    (∀ j ∈ fingerprintIndices pathHashes hashPrime, j < numWords * 64) ∧
    (∀ buf, path_fingerprint buf pathHashes numWords hashPrime =
        (fingerprintIndices pathHashes hashPrime).foldl
          (fun fp j => set j fp) (zero numWords) ∧
      SubgraphsFingerprint.run buf pathHashes numWords hashPrime =
        (fingerprintIndices pathHashes hashPrime).foldl
          (fun fp j => set j fp) (zero numWords)) := by
  refine ⟨by simpa [fingerprint_assert] using hW, ?_, ?_⟩
  · intro j hj
    obtain ⟨h, _, rfl⟩ := List.mem_map.mp hj
    exact lt_of_lt_of_le (Nat.mod_lt h hp) hW
  · intro buf
    constructor <;>
      rw [fingerprintIndices, List.foldl_map]<;> rfl

/-- Witness for C9 at a concrete input: hashes `[100]`, one word, prime
61. -/
theorem fingerprint_indices_in_bounds_witness :
    (0 : Nat) < 61 ∧ (61 : Nat) ≤ 1 * 64 ∧
    (fingerprint_assert 1 61 = true ∧
     (∀ j ∈ fingerprintIndices [100] 61, j < 1 * 64) ∧
     (∀ buf, path_fingerprint buf [100] 1 61 =
         (fingerprintIndices [100] 61).foldl (fun fp j => set j fp) (zero 1) ∧
       SubgraphsFingerprint.run buf [100] 1 61 =
         (fingerprintIndices [100] 61).foldl (fun fp j => set j fp) (zero 1))) :=
  ⟨by decide, by decide,
    fingerprint_indices_in_bounds [100] 1 61 (by decide) (by decide)⟩

/-- Claim C2 fails on the code: for `N = 65` fingerprints the writer
computes `words_per_fpbit = (65 + 65 % 64) / 64 = 1`, while the ceiling
`⌈65 / 64⌉ = (65 + 64 - 1) / 64` is 2; the stored matrix rows are one word
short of what the claim states. -/
theorem words_per_fpbit_is_not_ceiling :
    (mkInvertedFingerprintOutputFile 1024 65).header.words_per_fpbit = 1 ∧
    (65 + 64 - 1) / 64 = 2 :=
  ⟨rfl, rfl⟩

theorem searchStep_eq (w : Nat) (data q : List Nat) :
    InvertedFingerprintFile.searchStep w data q =
      InvertedFingerprintFileCached.searchStep w data q := by
  funext st i
  unfold InvertedFingerprintFile.searchStep InvertedFingerprintFileCached.searchStep
  cases hq : get i q with
  | false => simp [hq]
  | true =>
    simp only [hq, Bool.not_true, Bool.false_eq_true, if_false]
    congr 1 <;>
    · congr 1
      apply List.foldl_ext
      intro a b hb
      rw [getD_map_range _ (List.mem_range.mp hb)]

/-- Claim C6: for every inverted archive (any header and matrix words) and
every query fingerprint and prior result buffer,
`InvertedFingerprintFileCached::search` produces exactly the same result
buffer contents as `InvertedFingerprintFile::search`: the scratch row the
seeking reader reads from disk holds, word for word, what the cached
reader addresses in memory. -/
theorem cached_search_refines_search (header : InvertedFingerprintFileHeader)
    (data fingerprint result : List Nat) :
    InvertedFingerprintFileCached.search header data fingerprint result =
      InvertedFingerprintFile.search header data fingerprint result := by
  unfold InvertedFingerprintFile.search InvertedFingerprintFileCached.search
  rw [searchStep_eq]

/-- Claim C3 (amended): for every inverted archive and every query
fingerprint with no bit set, both searches leave the result buffer exactly
as it was (the loop body never runs); the buffer is not zeroed. -/
theorem search_empty_query_leaves_result (header : InvertedFingerprintFileHeader)
    (data q r : List Nat) (hq : ∀ i, get i q = false) :
    InvertedFingerprintFile.search header data q r = r ∧
    InvertedFingerprintFileCached.search header data q r = r := by
  constructor
  · unfold InvertedFingerprintFile.search
    rw [foldl_fix _ (fun st i => by
      simp [InvertedFingerprintFile.searchStep, hq i])]
  · unfold InvertedFingerprintFileCached.search
    rw [foldl_fix _ (fun st i => by
      simp [InvertedFingerprintFileCached.searchStep, hq i])]

/-- Witness for the amended C3: an all-zero one-word query against a
64-bit-per-fingerprint archive leaves the result buffer `[7]` as it is. -/
theorem search_empty_query_leaves_result_witness :
    (∀ i, get i (zero 1) = false) ∧
    (InvertedFingerprintFile.search (mkInvertedFingerprintOutputFile 64 64).header
        (List.replicate 64 0) (zero 1) [7] = [7] ∧
     InvertedFingerprintFileCached.search (mkInvertedFingerprintOutputFile 64 64).header
        (List.replicate 64 0) (zero 1) [7] = [7]) :=
  ⟨fun i => get_zero i 1,
    search_empty_query_leaves_result _ _ _ _ (fun i => get_zero i 1)⟩

set_option maxRecDepth 100000

/-- Claim C3 as stated is false on the code: searching with the all-zero
one-word query `[0]` on an archive of 64 fingerprints leaves a result
buffer that held `[5]` at `[5]`, for both readers, and `[5]` is not the
zero-filled buffer the claim requires. -/
theorem search_empty_query_not_zeroed :
    InvertedFingerprintFile.search (mkInvertedFingerprintOutputFile 64 64).header
      (List.replicate 64 0) [0] [5] = [5] ∧
    InvertedFingerprintFileCached.search (mkInvertedFingerprintOutputFile 64 64).header
      (List.replicate 64 0) [0] [5] = [5] ∧
    ([5] : List Nat) ≠ List.replicate 1 0 := by
  refine ⟨by decide, by decide, by decide⟩

/-- Claim C1 fails on the code: build an inverted archive for `N = 1`
fingerprint of 64 bits and write the fingerprint `F_0 = [1]` (bit 0 set).
Because `words_per_fpbit = (1 + 1 % 64) / 64 = 0`, the matrix gets
`0 * 64 = 0` words and nothing is stored.  For the query `Q = [1]`
(bit 0 set, so `F_0 ⊇ Q`) and the result buffer returned by
`allocate_result()` (`new Word[0]`, zero words), bit `m = 0` of the search
result is clear although the claim requires it set. -/
theorem search_misses_stored_superset :
    get 0 ([1] : List Nat) = true ∧
    (writeAll (mkInvertedFingerprintOutputFile 64 1) [[1]]).header.num_fingerprints = 1 ∧
    (writeAll (mkInvertedFingerprintOutputFile 64 1) [[1]]).header.words_per_fpbit = 0 ∧
    get 0 (InvertedFingerprintFileCached.search
      (writeAll (mkInvertedFingerprintOutputFile 64 1) [[1]]).header
      (writeAll (mkInvertedFingerprintOutputFile 64 1) [[1]]).data [1] []) = false := by
  refine ⟨by decide, by decide, by decide, by decide⟩

/-- Claim C7 fails on the code: `write` never compares `m_current` with
`num_fingerprints`.  On a writer built for `N = 32` fingerprints of 64
bits, 33 calls to `write` with the fingerprint `[1]` are all accepted
(`m_current` reaches 33), and the 33rd call records its bit at matrix
position 32 — past the 32 molecules the archive was sized for — instead
of failing. -/
theorem inverted_write_accepts_overrun :
    (mkInvertedFingerprintOutputFile 64 32).header.num_fingerprints = 32 ∧
    (writeAll (mkInvertedFingerprintOutputFile 64 32) (List.replicate 33 [1])).current = 33 ∧
    get 32 (writeAll (mkInvertedFingerprintOutputFile 64 32) (List.replicate 33 [1])).data = true := by
  refine ⟨by decide, by decide, by decide⟩

/-- Claim C8 as stated is false on the code: a file of only four bytes
whose bytes decode (little-endian) to the magic number 0x48650001 is
shorter than the 24-byte header yet is accepted by both reader
constructors, because neither checks the stream state after reading the
header — only the magic field is validated. -/
theorem truncated_header_with_magic_accepted :
    InvertedFingerprintFile.openFile [1, 0, 101, 72] =
      some (readInvertedHeader [1, 0, 101, 72]) ∧
    InvertedFingerprintFileCached.openFile [1, 0, 101, 72] =
      some (readInvertedHeader [1, 0, 101, 72]) ∧
    List.length [1, 0, 101, 72] < 24 :=
  ⟨rfl, rfl, by decide⟩

/-- Claim C8 (amended): both reader constructors reject a file exactly
when its first four bytes (zero-extended when the file is shorter) do not
decode to the magic number 0x48650001; in particular a magic mismatch is
always fatal at open time, but truncation after correct magic bytes goes
undetected. -/
theorem openFile_rejects_iff_bad_magic (bytes : List Nat) :
    (InvertedFingerprintFile.openFile bytes = none ↔
      readU32LE bytes 0 ≠ get_magic_number) ∧
    (InvertedFingerprintFileCached.openFile bytes = none ↔
      readU32LE bytes 0 ≠ get_magic_number) := by
  unfold InvertedFingerprintFile.openFile InvertedFingerprintFileCached.openFile
  by_cases h : readU32LE bytes 0 = get_magic_number <;>
    simp [readInvertedHeader, h]

theorem readWords_advance : ∀ (k : Nat) (s : ByteStream) (b : List Nat),
    s.fail = false → s.pos + 8 * k ≤ s.bytes.length →
    ((((List.range k).foldl readWordsStep (s, b)).1.fail = false) ∧
     (((List.range k).foldl readWordsStep (s, b)).1.pos = s.pos + 8 * k) ∧
     (((List.range k).foldl readWordsStep (s, b)).1.bytes = s.bytes)) := by
  intro k
  induction k with
  | zero => intro s b h1 h2; exact ⟨h1, by simp, rfl⟩
  | succ k ih =>
    intro s b h1 h2
    rw [List.range_succ, List.foldl_append]
    obtain ⟨hf, hp, hb⟩ := ih s b h1 (by omega)
    have hle : ((List.range k).foldl readWordsStep (s, b)).1.pos + 8 ≤
        ((List.range k).foldl readWordsStep (s, b)).1.bytes.length := by
      rw [hp, hb]; omega
    simp only [List.foldl_cons, List.foldl_nil, readWordsStep, hf,
      Bool.false_eq_true, if_false, ByteStream.read64, if_pos hle]
    exact ⟨trivial, by simp only [hp]; omega, hb⟩

/-- Claim C10: `FingerprintFile` reads `m_numFingerprints` as a 32-bit
little-endian integer at the start of the file and hardwires
`m_numWords = 16`; `read_fingerprint` returns false without touching the
state when the stream has failed, returns false as soon as the incremented
`m_current` reaches `m_numFingerprints` (so after `m_numFingerprints`
successful yields), and otherwise reads exactly 16 words (128 bytes) and
advances `m_current` by one (modulo 2 ^ 32, it starts at `(unsigned)-1`). -/
theorem fingerprint_file_contract (bytes buf : List Nat) (f : FingerprintFile) :
    ((mkFingerprintFile bytes).numFingerprints = readU32LE bytes 0 ∧
     (mkFingerprintFile bytes).numWords = 16) ∧
    (f.stream.fail = true → f.read_fingerprint buf = (false, f, buf)) ∧
    (f.stream.fail = false → (f.current + 1) % 2 ^ 32 = f.numFingerprints →
      f.read_fingerprint buf =
        (false, { f with current := (f.current + 1) % 2 ^ 32 }, buf)) ∧
    (f.stream.fail = false → (f.current + 1) % 2 ^ 32 ≠ f.numFingerprints →
      f.numWords = 16 → f.stream.pos + 16 * 8 ≤ f.stream.bytes.length →
      ((f.read_fingerprint buf).1 = true ∧
       (f.read_fingerprint buf).2.1.current = (f.current + 1) % 2 ^ 32 ∧
       (f.read_fingerprint buf).2.1.stream.pos = f.stream.pos + 16 * 8 ∧
       (f.read_fingerprint buf).2.1.numFingerprints = f.numFingerprints ∧
       (f.read_fingerprint buf).2.1.numWords = 16)) := by
  refine ⟨⟨rfl, rfl⟩, ?_, ?_, ?_⟩
  · intro hfail
    unfold FingerprintFile.read_fingerprint
    rw [hfail]
    rfl
  · intro hfail hcur
    unfold FingerprintFile.read_fingerprint
    rw [hfail]
    simp only [Bool.false_eq_true, if_false]
    rw [if_pos hcur]
  · intro hfail hcur hwords hlen
    unfold FingerprintFile.read_fingerprint
    rw [hfail]
    simp only [Bool.false_eq_true, if_false]
    rw [if_neg hcur, hwords]
    obtain ⟨h1, h2, h3⟩ := readWords_advance 16 f.stream buf hfail (by omega)
    refine ⟨by simp [h1], rfl, ?_, rfl, rfl⟩
    show ((List.range 16).foldl readWordsStep (f.stream, buf)).1.pos = f.stream.pos + 16 * 8
    rw [h2]

/-- Witness for C10: a file of a 32-bit count 2 followed by 128 bytes;
the first `read_fingerprint` call succeeds. -/
theorem fingerprint_file_contract_witness :
    ((mkFingerprintFile ([2, 0, 0, 0] ++ List.replicate 128 9)).stream.fail = false) ∧
    (((mkFingerprintFile ([2, 0, 0, 0] ++ List.replicate 128 9)).current + 1) % 2 ^ 32 ≠
      (mkFingerprintFile ([2, 0, 0, 0] ++ List.replicate 128 9)).numFingerprints) ∧
    ((mkFingerprintFile ([2, 0, 0, 0] ++ List.replicate 128 9)).numWords = 16) ∧
    ((mkFingerprintFile ([2, 0, 0, 0] ++ List.replicate 128 9)).stream.pos + 16 * 8 ≤
      (mkFingerprintFile ([2, 0, 0, 0] ++ List.replicate 128 9)).stream.bytes.length) ∧
    (((mkFingerprintFile ([2, 0, 0, 0] ++ List.replicate 128 9)).read_fingerprint
        (List.replicate 16 0)).1 = true) := by
  refine ⟨by decide, by decide, by decide, by decide, ?_⟩
  exact ((fingerprint_file_contract ([2, 0, 0, 0] ++ List.replicate 128 9)
    (List.replicate 16 0)
    (mkFingerprintFile ([2, 0, 0, 0] ++ List.replicate 128 9))).2.2.2
      (by decide) (by decide) (by decide) (by decide)).1

end Helium
